import Mathlib

/-!
Verification of the upb run-time struct format (src/upb_struct.h).

The instance buffer behind a C uint8_t pointer is modelled as a byte
memory: a function from byte index to byte value (a natural number,
below 256 for well-formed buffers).  Every accessor of the header is
translated directly; multi-byte loads and stores are modelled as
little-endian byte sequences, matching the in-memory object
representation the header manipulates on the host machine.
-/

namespace Upb

/-- Byte memory: the contents behind a uint8_t pointer, one value per
byte index. -/
abbrev Mem : Type := Nat → Nat

/-- Update a single byte of a memory. -/
def setByte (s : Mem) (i v : Nat) : Mem := fun j => if j = i then v else s j

/-- One single field of the struct (struct upb_struct_field):
byte offset of the data, byte offset of the "set" bit, and the
single-bit mask selecting that bit. -/
structure upb_struct_field where
  byte_offset : Nat
  isset_byte_offset : Nat
  isset_byte_mask : Nat
deriving DecidableEq

/-- Definition of a complete struct (struct upb_struct_definition). -/
structure upb_struct_definition where
  size : Nat
  num_fields : Nat
  set_flags_bytes : Nat
  num_required_fields : Nat
  fields : List upb_struct_field
deriving DecidableEq

/-- Read w bytes little-endian starting at address a. -/
def readBytes (s : Mem) : Nat → Nat → Nat
  | _, 0 => 0
  | a, w + 1 => s a + 256 * readBytes s (a + 1) w

/-- Write the w low-order bytes of v little-endian starting at
address a. -/
def writeBytes : Mem → Nat → Nat → Nat → Mem
  | s, _, 0, _ => s
  | s, a, w + 1, v => writeBytes (setByte s a (v % 256)) (a + 1) w (v / 256)

/-- Reinterpret a 32-bit object representation as a signed value
(two's complement). -/
def toInt32 (raw : Nat) : Int :=
  if raw < 2 ^ 31 then (raw : Int) else (raw : Int) - 2 ^ 32

/-- Object representation of a signed 32-bit value. -/
def ofInt32 (v : Int) : Nat := (v % 2 ^ 32).toNat

/-- Reinterpret a 64-bit object representation as a signed value
(two's complement). -/
def toInt64 (raw : Nat) : Int :=
  if raw < 2 ^ 63 then (raw : Int) else (raw : Int) - 2 ^ 64

/-- Object representation of a signed 64-bit value. -/
def ofInt64 (v : Int) : Nat := (v % 2 ^ 64).toNat

/-! Accessors for primitive types, from UPB_DEFINE_ACCESSORS: the value
of field f lives at s + f->byte_offset.  Floating-point fields are
modelled by their 64-bit / 32-bit object representation: the accessors
only copy bytes, they never compute with the value. -/

def upb_struct_get_double (s : Mem) (f : upb_struct_field) : Nat :=
  readBytes s f.byte_offset 8

def upb_struct_set_double (s : Mem) (f : upb_struct_field) (v : Nat) : Mem :=
  writeBytes s f.byte_offset 8 v

def upb_struct_get_float (s : Mem) (f : upb_struct_field) : Nat :=
  readBytes s f.byte_offset 4

def upb_struct_set_float (s : Mem) (f : upb_struct_field) (v : Nat) : Mem :=
  writeBytes s f.byte_offset 4 v

def upb_struct_get_int32 (s : Mem) (f : upb_struct_field) : Int :=
  toInt32 (readBytes s f.byte_offset 4)

def upb_struct_set_int32 (s : Mem) (f : upb_struct_field) (v : Int) : Mem :=
  writeBytes s f.byte_offset 4 (ofInt32 v)

def upb_struct_get_int64 (s : Mem) (f : upb_struct_field) : Int :=
  toInt64 (readBytes s f.byte_offset 8)

def upb_struct_set_int64 (s : Mem) (f : upb_struct_field) (v : Int) : Mem :=
  writeBytes s f.byte_offset 8 (ofInt64 v)

def upb_struct_get_uint32 (s : Mem) (f : upb_struct_field) : Nat :=
  readBytes s f.byte_offset 4

def upb_struct_set_uint32 (s : Mem) (f : upb_struct_field) (v : Nat) : Mem :=
  writeBytes s f.byte_offset 4 v

def upb_struct_get_uint64 (s : Mem) (f : upb_struct_field) : Nat :=
  readBytes s f.byte_offset 8

def upb_struct_set_uint64 (s : Mem) (f : upb_struct_field) (v : Nat) : Mem :=
  writeBytes s f.byte_offset 8 v

def upb_struct_get_bool (s : Mem) (f : upb_struct_field) : Bool :=
  readBytes s f.byte_offset 1 != 0

def upb_struct_set_bool (s : Mem) (f : upb_struct_field) (v : Bool) : Mem :=
  writeBytes s f.byte_offset 1 (if v then 1 else 0)

/-- Represents an array, struct upb_array: element count plus the data
pointer (modelled as the base address of the element storage inside an
ambient byte memory). -/
structure upb_array where
  len : Nat
  data : Nat
deriving DecidableEq

/-- Address of element n of an int32 array: ((int32_t*)a->data) + n,
i.e. a->data + 4 * n bytes. -/
def upb_array_get_int32_ptr (a : upb_array) (n : Nat) : Nat :=
  a.data + 4 * n

def upb_array_get_int32 (m : Mem) (a : upb_array) (n : Nat) : Int :=
  toInt32 (readBytes m (upb_array_get_int32_ptr a n) 4)

def upb_array_set_int32 (m : Mem) (a : upb_array) (n : Nat) (v : Int) : Mem :=
  writeBytes m (upb_array_get_int32_ptr a n) 4 (ofInt32 v)

/-! Presence-flag operations.  In C, upb_struct_unset computes
s[off] &= ~mask on a uint8_t; for byte values this is the same as
AND with (255 XOR mask). -/

/-- upb_struct_set: s[f->isset_byte_offset] |= f->isset_byte_mask. -/
def upb_struct_set (s : Mem) (f : upb_struct_field) : Mem :=
  setByte s f.isset_byte_offset (s f.isset_byte_offset ||| f.isset_byte_mask)

/-- upb_struct_unset: s[f->isset_byte_offset] &= ~f->isset_byte_mask. -/
def upb_struct_unset (s : Mem) (f : upb_struct_field) : Mem :=
  setByte s f.isset_byte_offset
    (s f.isset_byte_offset &&& (255 ^^^ f.isset_byte_mask))

/-- upb_struct_is_set: s[f->isset_byte_offset] & f->isset_byte_mask,
as a boolean. -/
def upb_struct_is_set (s : Mem) (f : upb_struct_field) : Bool :=
  (s f.isset_byte_offset &&& f.isset_byte_mask) != 0

/-- Loop of upb_struct_all_required_fields_set, with the running byte
index i and the remaining count of required fields: while more than 8
remain, the byte at i must be 0xFF; the final byte is compared against
(1 << remaining) - 1. -/
def upb_struct_all_required_fields_set_from (s : Mem) (i num_fields : Nat) : Bool :=
  if h : 8 < num_fields then
    if s i = 255 then upb_struct_all_required_fields_set_from s (i + 1) (num_fields - 8)
    else false
  else s i == (1 <<< num_fields) - 1
termination_by num_fields
decreasing_by omega

/-- upb_struct_all_required_fields_set: scan starts at byte 0 with
d->num_required_fields bits to account for. -/
def upb_struct_all_required_fields_set (s : Mem) (d : upb_struct_definition) : Bool :=
  upb_struct_all_required_fields_set_from s 0 d.num_required_fields

/-- upb_struct_clear: memset(s, 0, d->set_flags_bytes). -/
def upb_struct_clear (s : Mem) (d : upb_struct_definition) : Mem :=
  fun j => if j < d.set_flags_bytes then 0 else s j

/-- Modelled from the spec: the header declares
upb_struct_find_field_by_name and upb_struct_find_field_by_number
(src/upb_struct.h, lines 63-66) but their implementation file is not
under src/.  Following the spec, lookup is a linear search keyed by a
name and a protobuf field number associated with each descriptor,
returning none (the NULL sentinel) when the key is absent. -/
structure upb_named_field where
  name : String
  number : Nat
  field : upb_struct_field
deriving DecidableEq

/-- Modelled from the spec: findFieldByName(definition, name) is a
linear lookup returning none (null-equivalent) if absent. -/
def upb_struct_find_field_by_name :
    List upb_named_field → String → Option upb_struct_field
  | [], _ => none
  | nf :: rest, nm =>
      if nf.name = nm then some nf.field
      else upb_struct_find_field_by_name rest nm

/-- Modelled from the spec: findFieldByNumber(definition, number), same
contract keyed by protobuf field number. -/
def upb_struct_find_field_by_number :
    List upb_named_field → Nat → Option upb_struct_field
  | [], _ => none
  | nf :: rest, num =>
      if nf.number = num then some nf.field
      else upb_struct_find_field_by_number rest num

/-- Presence bit at bit position p of the flag region: bit p % 8 of
byte p / 8.  Under the packing invariant, required field number j has
its presence bit at position j. -/
def presence_bit (s : Mem) (p : Nat) : Bool :=
  (s (p / 8)).testBit (p % 8)

/-- Number of whole 0xFF bytes the required-field scan walks: one per
iteration of the while (num_fields > 8) loop. -/
def req_full_bytes (n : Nat) : Nat :=
  if h : 8 < n then req_full_bytes (n - 8) + 1 else 0
termination_by n
decreasing_by omega

/-- Number of required bits left for the final partial-byte compare. -/
def req_rem (n : Nat) : Nat :=
  if h : 8 < n then req_rem (n - 8) else n
termination_by n
decreasing_by omega

/-! Basic memory lemmas. -/

lemma setByte_self (s : Mem) (i v : Nat) : setByte s i v i = v := by
  simp [setByte]

lemma setByte_ne (s : Mem) (i v j : Nat) (h : j ≠ i) : setByte s i v j = s j := by
  simp [setByte, h]

lemma setByte_absorb (s : Mem) (i v w : Nat) :
    setByte (setByte s i v) i w = setByte s i w := by
  funext j
  by_cases h : j = i <;> simp [setByte, h]

lemma writeBytes_outside :
    ∀ (w : Nat) (s : Mem) (a v j : Nat), j < a ∨ a + w ≤ j →
      writeBytes s a w v j = s j := by
  intro w
  induction w with
  | zero => intro s a v j _; rfl
  | succ w ih =>
      intro s a v j hj
      rw [writeBytes]
      rw [ih (setByte s a (v % 256)) (a + 1) (v / 256) j (by omega)]
      exact setByte_ne s a (v % 256) j (by omega)

lemma readBytes_congr :
    ∀ (w : Nat) (s t : Mem) (a : Nat),
      (∀ j, a ≤ j → j < a + w → s j = t j) →
      readBytes s a w = readBytes t a w := by
  intro w
  induction w with
  | zero => intro s t a _; rfl
  | succ w ih =>
      intro s t a h
      rw [readBytes, readBytes]
      rw [h a (by omega) (by omega)]
      rw [ih s t (a + 1) (fun j h1 h2 => h j (by omega) (by omega))]

lemma readBytes_writeBytes :
    ∀ (w : Nat) (s : Mem) (a v : Nat),
      readBytes (writeBytes s a w v) a w = v % 2 ^ (8 * w) := by
  intro w
  induction w with
  | zero => intro s a v; simp [readBytes, writeBytes, Nat.mod_one]
  | succ w ih =>
      intro s a v
      rw [writeBytes, readBytes]
      rw [writeBytes_outside w (setByte s a (v % 256)) (a + 1) (v / 256) a (by omega)]
      rw [setByte_self, ih]
      have h2 : 2 ^ (8 * (w + 1)) = 256 * 2 ^ (8 * w) := by
        rw [show 8 * (w + 1) = 8 + 8 * w by ring, pow_add]
        norm_num
      rw [h2, Nat.mod_mul]

lemma readBytes_writeBytes_disjoint (w w2 : Nat) (s : Mem) (a b v : Nat)
    (h : a + w ≤ b ∨ b + w2 ≤ a) :
    readBytes (writeBytes s b w2 v) a w = readBytes s a w := by
  apply readBytes_congr
  intro j h1 h2
  exact writeBytes_outside w2 s b v j (by omega)

/-! Signed round-trip lemmas. -/

lemma ofInt32_lt (v : Int) : ofInt32 v < 2 ^ 32 := by
  unfold ofInt32
  omega

lemma toInt32_ofInt32 (v : Int) (h1 : -(2 ^ 31) ≤ v) (h2 : v < 2 ^ 31) :
    toInt32 (ofInt32 v) = v := by
  unfold toInt32 ofInt32
  split <;> omega

lemma ofInt64_lt (v : Int) : ofInt64 v < 2 ^ 64 := by
  unfold ofInt64
  omega

lemma toInt64_ofInt64 (v : Int) (h1 : -(2 ^ 63) ≤ v) (h2 : v < 2 ^ 63) :
    toInt64 (ofInt64 v) = v := by
  unfold toInt64 ofInt64
  split <;> omega

/-! Unfolding lemmas for the required-field scan (the definitions use
well-founded recursion, so we expose their equations explicitly). -/

lemma all_required_from_eq_of_le (s : Mem) (i n : Nat) (h : n ≤ 8) :
    upb_struct_all_required_fields_set_from s i n = (s i == (1 <<< n) - 1) := by
  rw [upb_struct_all_required_fields_set_from]
  rw [dif_neg (by omega)]

lemma all_required_from_eq_of_gt (s : Mem) (i n : Nat) (h : 8 < n) :
    upb_struct_all_required_fields_set_from s i n =
      if s i = 255 then upb_struct_all_required_fields_set_from s (i + 1) (n - 8)
      else false := by
  rw [upb_struct_all_required_fields_set_from]
  rw [dif_pos h]

lemma req_full_bytes_eq_of_le (n : Nat) (h : n ≤ 8) : req_full_bytes n = 0 := by
  rw [req_full_bytes]
  rw [dif_neg (by omega)]

lemma req_full_bytes_eq_of_gt (n : Nat) (h : 8 < n) :
    req_full_bytes n = req_full_bytes (n - 8) + 1 := by
  rw [req_full_bytes]
  rw [dif_pos h]

lemma req_rem_eq_of_le (n : Nat) (h : n ≤ 8) : req_rem n = n := by
  rw [req_rem]
  rw [dif_neg (by omega)]

lemma req_rem_eq_of_gt (n : Nat) (h : 8 < n) : req_rem n = req_rem (n - 8) := by
  rw [req_rem]
  rw [dif_pos h]

lemma req_rem_le_eight : ∀ n, req_rem n ≤ 8 := by
  intro n
  induction n using Nat.strong_induction_on with
  | _ n ih =>
    by_cases h : 8 < n
    · rw [req_rem_eq_of_gt n h]; exact ih (n - 8) (by omega)
    · rw [req_rem_eq_of_le n (by omega)]; omega

lemma req_rem_pos : ∀ n, 0 < n → 0 < req_rem n := by
  intro n
  induction n using Nat.strong_induction_on with
  | _ n ih =>
    intro h
    by_cases h8 : 8 < n
    · rw [req_rem_eq_of_gt n h8]; exact ih (n - 8) (by omega) (by omega)
    · rw [req_rem_eq_of_le n (by omega)]; exact h

lemma req_decomp : ∀ n, 8 * req_full_bytes n + req_rem n = n := by
  intro n
  induction n using Nat.strong_induction_on with
  | _ n ih =>
    by_cases h : 8 < n
    · rw [req_rem_eq_of_gt n h, req_full_bytes_eq_of_gt n h]
      have := ih (n - 8) (by omega)
      omega
    · rw [req_rem_eq_of_le n (by omega), req_full_bytes_eq_of_le n (by omega)]
      omega

/-- Byte-level characterization of the scan: the loop accepts exactly
when the req_full_bytes n whole bytes at i are all 0xFF and the next
byte equals the partial mask for the remaining bits. -/
lemma all_required_from_spec :
    ∀ (n i : Nat) (s : Mem),
      (upb_struct_all_required_fields_set_from s i n = true ↔
        ((∀ j, j < req_full_bytes n → s (i + j) = 255) ∧
         s (i + req_full_bytes n) = 2 ^ req_rem n - 1)) := by
  intro n
  induction n using Nat.strong_induction_on with
  | _ n ih =>
    intro i s
    by_cases h : 8 < n
    · rw [all_required_from_eq_of_gt s i n h, req_full_bytes_eq_of_gt n h,
        req_rem_eq_of_gt n h]
      by_cases hsi : s i = 255
      · rw [if_pos hsi, ih (n - 8) (by omega) (i + 1) s]
        constructor
        · rintro ⟨h1, h2⟩
          refine ⟨?_, ?_⟩
          · intro j hj
            cases j with
            | zero => simpa using hsi
            | succ j2 =>
                have hx := h1 j2 (by omega)
                have heq : i + 1 + j2 = i + (j2 + 1) := by omega
                rwa [heq] at hx
          · have heq : i + 1 + req_full_bytes (n - 8) =
                i + (req_full_bytes (n - 8) + 1) := by omega
            rwa [heq] at h2
        · rintro ⟨h1, h2⟩
          refine ⟨?_, ?_⟩
          · intro j hj
            have hx := h1 (j + 1) (by omega)
            have heq : i + (j + 1) = i + 1 + j := by omega
            rwa [heq] at hx
          · have heq : i + (req_full_bytes (n - 8) + 1) =
                i + 1 + req_full_bytes (n - 8) := by omega
            rwa [heq] at h2
      · rw [if_neg hsi]
        simp only [Bool.false_eq_true, false_iff]
        rintro ⟨h1, _⟩
        exact hsi (by simpa using h1 0 (by omega))
    · rw [all_required_from_eq_of_le s i n (by omega),
        req_full_bytes_eq_of_le n (by omega), req_rem_eq_of_le n (by omega)]
      simp [beq_iff_eq, Nat.one_shiftLeft]

/-- A byte below 256 equals the low-bits mask 2 ^ r - 1 (r at most 8)
exactly when its bits are set precisely below position r. -/
lemma byte_eq_mask_iff (b r : Nat) (hb : b < 256) (hr : r ≤ 8) :
    b = 2 ^ r - 1 ↔ ∀ k, k < 8 → b.testBit k = decide (k < r) := by
  constructor
  · intro hb2 k _
    rw [hb2, Nat.testBit_two_pow_sub_one]
  · intro h
    apply Nat.eq_of_testBit_eq
    intro k
    by_cases hk : k < 8
    · rw [h k hk, Nat.testBit_two_pow_sub_one]
    · have h2k : (256 : Nat) ≤ 2 ^ k := by
        calc (256 : Nat) = 2 ^ 8 := by norm_num
          _ ≤ 2 ^ k := Nat.pow_le_pow_right (by norm_num) (by omega)
      have hbk : b.testBit k = false :=
        Nat.testBit_lt_two_pow (lt_of_lt_of_le hb h2k)
      rw [hbk, Nat.testBit_two_pow_sub_one]
      have hkr : ¬(k < r) := by omega
      simp [hkr]

/-- Bit-level characterization: the check accepts exactly when, within
the scanned bytes, bit position p is set precisely for
p < num_required_fields (the required positions, by the packing
invariant). -/
lemma all_required_iff_bits (s : Mem) (d : upb_struct_definition)
    (hb : ∀ j, s j < 256) :
    upb_struct_all_required_fields_set s d = true ↔
      ∀ p, p < 8 * (req_full_bytes d.num_required_fields + 1) →
        presence_bit s p = decide (p < d.num_required_fields) := by
  have hdec := req_decomp d.num_required_fields
  have hrle := req_rem_le_eight d.num_required_fields
  rw [upb_struct_all_required_fields_set,
    all_required_from_spec d.num_required_fields 0 s]
  constructor
  · rintro ⟨h1, h2⟩ p hp
    have hk8 : p % 8 < 8 := Nat.mod_lt _ (by norm_num)
    unfold presence_bit
    by_cases hj : p / 8 < req_full_bytes d.num_required_fields
    · have hbyte := h1 (p / 8) hj
      rw [Nat.zero_add] at hbyte
      rw [hbyte]
      have h255 : (255 : Nat) = 2 ^ 8 - 1 := by norm_num
      rw [h255, Nat.testBit_two_pow_sub_one]
      have hrpos : 0 < req_rem d.num_required_fields :=
        req_rem_pos d.num_required_fields (by omega)
      have hpn : p < d.num_required_fields := by omega
      exact decide_eq_decide.mpr (iff_of_true hk8 hpn)
    · have hjt : p / 8 = req_full_bytes d.num_required_fields := by omega
      have hbyte : s (p / 8) = 2 ^ req_rem d.num_required_fields - 1 := by
        rw [hjt]; simpa using h2
      rw [hbyte, Nat.testBit_two_pow_sub_one]
      exact decide_eq_decide.mpr (by omega)
  · intro h
    refine ⟨?_, ?_⟩
    · intro j hj
      rw [Nat.zero_add]
      have h8 : ∀ k, k < 8 → (s j).testBit k = decide (k < 8) := by
        intro k hk
        have hp := h (8 * j + k) (by omega)
        unfold presence_bit at hp
        have hdk : (8 * j + k) / 8 = j := by omega
        have hmk : (8 * j + k) % 8 = k := by omega
        rw [hdk, hmk] at hp
        rw [hp]
        have hrpos : 0 < req_rem d.num_required_fields :=
          req_rem_pos d.num_required_fields (by omega)
        have hlt : 8 * j + k < d.num_required_fields := by omega
        exact decide_eq_decide.mpr (iff_of_true hlt hk)
      have hx := (byte_eq_mask_iff (s j) 8 (hb j) (by norm_num)).2 h8
      simpa using hx
    · rw [Nat.zero_add]
      apply (byte_eq_mask_iff (s (req_full_bytes d.num_required_fields))
        (req_rem d.num_required_fields) (hb _) hrle).2
      intro k hk
      have hp := h (8 * req_full_bytes d.num_required_fields + k) (by omega)
      unfold presence_bit at hp
      have hdk : (8 * req_full_bytes d.num_required_fields + k) / 8 =
          req_full_bytes d.num_required_fields := by omega
      have hmk : (8 * req_full_bytes d.num_required_fields + k) % 8 = k := by
        omega
      rw [hdk, hmk] at hp
      rw [hp]
      exact decide_eq_decide.mpr (by omega)

/-! Concrete buffers and definitions used by witnesses and
counterexamples. -/

/-- All-zero buffer. -/
def sZero : Mem := fun _ => 0

/-- Definition with one required field (presence bit 0 of byte 0) and
one optional field (bit 1 of byte 0). -/
def dC1 : upb_struct_definition :=
  ⟨16, 2, 1, 1, [⟨8, 0, 1⟩, ⟨12, 0, 2⟩]⟩

/-- Buffer with only the required bit set. -/
def sC1a : Mem := fun j => if j = 0 then 1 else 0

/-- Buffer with the required bit and the optional bit set. -/
def sC1b : Mem := fun j => if j = 0 then 3 else 0

/-- Definition with zero required fields and one optional field at bit
0 of byte 0. -/
def dC2 : upb_struct_definition := ⟨8, 1, 1, 0, [⟨1, 0, 1⟩]⟩

/-- Buffer whose presence byte 0 is 1 (the optional field is set). -/
def sC2 : Mem := fun j => if j = 0 then 1 else 0

/-- Definition with 10 required fields: bits 0-7 of presence byte 0 and
bits 0-1 of presence byte 1. -/
def d10 : upb_struct_definition :=
  ⟨12, 10, 2, 10,
    [⟨2, 0, 1⟩, ⟨3, 0, 2⟩, ⟨4, 0, 4⟩, ⟨5, 0, 8⟩, ⟨6, 0, 16⟩, ⟨7, 0, 32⟩,
     ⟨8, 0, 64⟩, ⟨9, 0, 128⟩, ⟨10, 1, 1⟩, ⟨11, 1, 2⟩]⟩

/-- byte0 = 0xFF, byte1 = 0b00000011. -/
def s10good : Mem := fun j => if j = 0 then 255 else if j = 1 then 3 else 0

/-- byte0 = 0xFF, byte1 = 0b00000001. -/
def s10bad : Mem := fun j => if j = 0 then 255 else if j = 1 then 1 else 0

/-- C1 counterexample: in dC1 the single required field has presence
bit 0 of byte 0, and bit 1 of byte 0 belongs to a non-required field.
Buffer sC1b has the required bit set (presence_bit sC1b 0 = true), yet
the check returns false, because the non-required bit sharing the
scanned byte is also set; sC1a (the same buffer without that
non-required bit) passes.  So the result is not determined by the
required bits alone, and flipping a non-required field's bit did change
the result - the claim's iff and its last clause both fail here. -/
theorem C1_counterexample :
    upb_struct_all_required_fields_set sC1a dC1 = true ∧
    presence_bit sC1b 0 = true ∧
    upb_struct_all_required_fields_set sC1b dC1 = false := by
  refine ⟨?_, by decide, ?_⟩
  · rw [upb_struct_all_required_fields_set,
      show dC1.num_required_fields = 1 from rfl,
      all_required_from_eq_of_le _ _ _ (by norm_num)]
    rfl
  · rw [upb_struct_all_required_fields_set,
      show dC1.num_required_fields = 1 from rfl,
      all_required_from_eq_of_le _ _ _ (by norm_num)]
    rfl

/-- C1 (amended): for a byte-valued buffer, allRequiredFieldsSet
returns true iff every required position's presence bit is 1 AND every
other presence bit within the scanned bytes is 0 (part 1); whenever any
required position's bit is 0 the result is false, so flipping a
required bit from 1 to 0 flips a true result to false (part 2); the
result depends only on the scanned bytes, so flipping any presence bit
outside them - in particular a non-required field's bit there - never
changes the result (part 3).  Under the packing invariant, required
field j has its presence bit at position j, so positions below
num_required_fields are exactly the required fields' bits. -/
theorem C1_required_fields_characterization (s : Mem)
    (d : upb_struct_definition) :
    ((∀ j, s j < 256) →
      (upb_struct_all_required_fields_set s d = true ↔
        ((∀ p, p < d.num_required_fields → presence_bit s p = true) ∧
         (∀ p, d.num_required_fields ≤ p →
            p < 8 * (req_full_bytes d.num_required_fields + 1) →
            presence_bit s p = false))))
    ∧ (∀ p, p < d.num_required_fields → presence_bit s p = false →
        upb_struct_all_required_fields_set s d = false)
    ∧ (∀ s2 : Mem,
        (∀ j, j ≤ req_full_bytes d.num_required_fields → s2 j = s j) →
        upb_struct_all_required_fields_set s2 d =
          upb_struct_all_required_fields_set s d) := by
  have hdec := req_decomp d.num_required_fields
  have hrle := req_rem_le_eight d.num_required_fields
  refine ⟨?_, ?_, ?_⟩
  · intro hb
    rw [all_required_iff_bits s d hb]
    constructor
    · intro h
      refine ⟨?_, ?_⟩
      · intro p hp
        have hscan : p < 8 * (req_full_bytes d.num_required_fields + 1) := by
          omega
        rw [h p hscan]
        exact decide_eq_true hp
      · intro p hp1 hp2
        rw [h p hp2]
        exact decide_eq_false (by omega)
    · rintro ⟨h1, h2⟩ p hp
      by_cases hpn : p < d.num_required_fields
      · rw [h1 p hpn]
        exact (decide_eq_true hpn).symm
      · rw [h2 p (by omega) hp]
        exact (decide_eq_false hpn).symm
  · intro p hp hbit
    by_contra hne
    have htrue : upb_struct_all_required_fields_set s d = true := by
      cases hres : upb_struct_all_required_fields_set s d
      · exact absurd hres hne
      · rfl
    rw [upb_struct_all_required_fields_set, all_required_from_spec] at htrue
    obtain ⟨h1, h2⟩ := htrue
    have hk8 : p % 8 < 8 := Nat.mod_lt _ (by norm_num)
    unfold presence_bit at hbit
    by_cases hj : p / 8 < req_full_bytes d.num_required_fields
    · have hbyte := h1 (p / 8) hj
      rw [Nat.zero_add] at hbyte
      rw [hbyte, show (255 : Nat) = 2 ^ 8 - 1 from by norm_num,
        Nat.testBit_two_pow_sub_one] at hbit
      simp [hk8] at hbit
    · have hjt : p / 8 = req_full_bytes d.num_required_fields := by omega
      have hbyte : s (p / 8) = 2 ^ req_rem d.num_required_fields - 1 := by
        rw [hjt]; simpa using h2
      rw [hbyte, Nat.testBit_two_pow_sub_one] at hbit
      have hlt : p % 8 < req_rem d.num_required_fields := by omega
      simp [hlt] at hbit
  · intro s2 hagree
    have h1 : (upb_struct_all_required_fields_set s2 d = true) ↔
        (upb_struct_all_required_fields_set s d = true) := by
      rw [upb_struct_all_required_fields_set,
        upb_struct_all_required_fields_set,
        all_required_from_spec, all_required_from_spec]
      constructor
      · rintro ⟨ha, hb2⟩
        refine ⟨?_, ?_⟩
        · intro j hj
          rw [← hagree (0 + j) (by omega)]
          exact ha j hj
        · rw [← hagree _ (by omega)]
          exact hb2
      · rintro ⟨ha, hb2⟩
        refine ⟨?_, ?_⟩
        · intro j hj
          rw [hagree (0 + j) (by omega)]
          exact ha j hj
        · rw [hagree _ (by omega)]
          exact hb2
    cases hA : upb_struct_all_required_fields_set s2 d <;>
      cases hB : upb_struct_all_required_fields_set s d <;>
      simp_all

/-- C1 witness: the amended characterization applied to the concrete
buffer sC1a and definition dC1, with the byte-validity hypothesis
discharged. -/
theorem C1_required_fields_characterization_witness :
    (∀ j, sC1a j < 256) ∧
    (upb_struct_all_required_fields_set sC1a dC1 = true ↔
      ((∀ p, p < dC1.num_required_fields → presence_bit sC1a p = true) ∧
       (∀ p, dC1.num_required_fields ≤ p →
          p < 8 * (req_full_bytes dC1.num_required_fields + 1) →
          presence_bit sC1a p = false))) := by
  have hb : ∀ j, sC1a j < 256 := by
    intro j
    simp only [sC1a]
    split <;> norm_num
  exact ⟨hb, (C1_required_fields_characterization sC1a dC1).1 hb⟩

/-- C2 counterexample: dC2 has zero required fields, yet on buffer sC2
(presence byte 0 equal to 1, e.g. a set optional field) the check
returns false, refuting "returns true unconditionally for any buffer
contents". -/
theorem C2_counterexample :
    dC2.num_required_fields = 0 ∧
    upb_struct_all_required_fields_set sC2 dC2 = false := by
  refine ⟨rfl, ?_⟩
  rw [upb_struct_all_required_fields_set,
    show dC2.num_required_fields = 0 from rfl,
    all_required_from_eq_of_le _ _ _ (by norm_num)]
  rfl

/-- C2 (amended): with num_required_fields = 0 the check still reads
presence byte 0 and compares it with the mask (1 << 0) - 1 = 0, so it
returns true iff presence byte 0 is 0, not unconditionally. -/
theorem C2_zero_required (s : Mem) (d : upb_struct_definition)
    (h : d.num_required_fields = 0) :
    (upb_struct_all_required_fields_set s d = true ↔ s 0 = 0) := by
  rw [upb_struct_all_required_fields_set, h,
    all_required_from_eq_of_le _ _ _ (by norm_num)]
  rw [show ((1 : Nat) <<< 0) - 1 = 0 from rfl]
  exact beq_iff_eq

/-- C2 witness: the amended statement applied to the all-zero buffer
and dC2. -/
theorem C2_zero_required_witness :
    dC2.num_required_fields = 0 ∧
    (upb_struct_all_required_fields_set sZero dC2 = true ↔ sZero 0 = 0) :=
  ⟨rfl, C2_zero_required sZero dC2 rfl⟩

/-- C3: the loop walks whole presence bytes while more than 8 required
bits remain (req_full_bytes of them), requiring each to be 0xFF, then
compares the final byte with (1 << remaining) - 1, where remaining is
req_rem; and on the 10-required-field layout, byte0 = 0xFF with byte1 =
0b00000011 passes while byte1 = 0b00000001 fails. -/
theorem C3_all_required_algorithm :
    (∀ (n i : Nat) (s : Mem),
      upb_struct_all_required_fields_set_from s i n = true ↔
        ((∀ j, j < req_full_bytes n → s (i + j) = 255) ∧
         s (i + req_full_bytes n) = (1 <<< req_rem n) - 1))
    ∧ upb_struct_all_required_fields_set s10good d10 = true
    ∧ upb_struct_all_required_fields_set s10bad d10 = false := by
  refine ⟨?_, ?_, ?_⟩
  · intro n i s
    rw [Nat.one_shiftLeft]
    exact all_required_from_spec n i s
  · rw [upb_struct_all_required_fields_set,
      show d10.num_required_fields = 10 from rfl,
      all_required_from_eq_of_gt _ _ _ (by norm_num),
      if_pos (show s10good 0 = 255 from rfl),
      all_required_from_eq_of_le _ _ _ (by norm_num)]
    rfl
  · rw [upb_struct_all_required_fields_set,
      show d10.num_required_fields = 10 from rfl,
      all_required_from_eq_of_gt _ _ _ (by norm_num),
      if_pos (show s10bad 0 = 255 from rfl),
      all_required_from_eq_of_le _ _ _ (by norm_num)]
    rfl

/-- C3 witness: the loop characterization instantiated at the concrete
10-required-field scan. -/
theorem C3_all_required_algorithm_witness :
    upb_struct_all_required_fields_set_from s10good 0 10 = true ↔
      ((∀ j, j < req_full_bytes 10 → s10good (0 + j) = 255) ∧
       s10good (0 + req_full_bytes 10) = (1 <<< req_rem 10) - 1) :=
  C3_all_required_algorithm.1 10 0 s10good

/-- C4: with 1 to 8 required fields the whole-byte loop never runs and
the check is exactly the comparison of presence byte 0 against
(1 << num_required_fields) - 1; consequently any set bit of byte 0 at a
position at or above num_required_fields (a non-required field sharing
byte 0) forces the result false even when all required bits are 1. -/
theorem C4_single_byte_exact_mask (s : Mem) (d : upb_struct_definition)
    (h1 : 1 ≤ d.num_required_fields) (h8 : d.num_required_fields ≤ 8) :
    (upb_struct_all_required_fields_set s d = true ↔
      s 0 = (1 <<< d.num_required_fields) - 1)
    ∧ (∀ k, d.num_required_fields ≤ k → k < 8 → (s 0).testBit k = true →
        upb_struct_all_required_fields_set s d = false) := by
  have hiff : upb_struct_all_required_fields_set s d = true ↔
      s 0 = (1 <<< d.num_required_fields) - 1 := by
    rw [upb_struct_all_required_fields_set,
      all_required_from_eq_of_le _ _ _ h8]
    exact beq_iff_eq
  refine ⟨hiff, ?_⟩
  intro k hk1 hk2 hbit
  by_contra hne
  have htrue : upb_struct_all_required_fields_set s d = true := by
    cases hres : upb_struct_all_required_fields_set s d
    · exact absurd hres hne
    · rfl
  rw [hiff.1 htrue, Nat.one_shiftLeft, Nat.testBit_two_pow_sub_one] at hbit
  simp at hbit
  omega

/-- C4 witness: the single-byte characterization applied to dC1
(one required field) and the buffer sC1a. -/
theorem C4_single_byte_exact_mask_witness :
    (1 ≤ dC1.num_required_fields) ∧ (dC1.num_required_fields ≤ 8) ∧
    ((upb_struct_all_required_fields_set sC1a dC1 = true ↔
       sC1a 0 = (1 <<< dC1.num_required_fields) - 1)
     ∧ (∀ k, dC1.num_required_fields ≤ k → k < 8 →
         (sC1a 0).testBit k = true →
         upb_struct_all_required_fields_set sC1a dC1 = false)) :=
  ⟨by decide, by decide,
    C4_single_byte_exact_mask sC1a dC1 (by decide) (by decide)⟩

/-- Field used by the round-trip witness. -/
def fC5 : upb_struct_field := ⟨2, 0, 1⟩

/-- C5: for every supported primitive type, set followed by get through
the slot at byte_offset returns the value written (floating-point
values are their object representation, signed values any value in the
two's-complement range of the width). -/
theorem C5_set_get_roundtrip (s : Mem) (f : upb_struct_field) :
    (∀ v : Nat, v < 2 ^ 64 →
      upb_struct_get_double (upb_struct_set_double s f v) f = v)
    ∧ (∀ v : Nat, v < 2 ^ 32 →
      upb_struct_get_float (upb_struct_set_float s f v) f = v)
    ∧ (∀ v : Int, -(2 ^ 31) ≤ v → v < 2 ^ 31 →
      upb_struct_get_int32 (upb_struct_set_int32 s f v) f = v)
    ∧ (∀ v : Int, -(2 ^ 63) ≤ v → v < 2 ^ 63 →
      upb_struct_get_int64 (upb_struct_set_int64 s f v) f = v)
    ∧ (∀ v : Nat, v < 2 ^ 32 →
      upb_struct_get_uint32 (upb_struct_set_uint32 s f v) f = v)
    ∧ (∀ v : Nat, v < 2 ^ 64 →
      upb_struct_get_uint64 (upb_struct_set_uint64 s f v) f = v)
    ∧ (∀ v : Bool,
      upb_struct_get_bool (upb_struct_set_bool s f v) f = v) := by
  refine ⟨?_, ?_, ?_, ?_, ?_, ?_, ?_⟩
  · intro v hv
    rw [upb_struct_get_double, upb_struct_set_double, readBytes_writeBytes]
    exact Nat.mod_eq_of_lt (by simpa using hv)
  · intro v hv
    rw [upb_struct_get_float, upb_struct_set_float, readBytes_writeBytes]
    exact Nat.mod_eq_of_lt (by simpa using hv)
  · intro v h1 h2
    rw [upb_struct_get_int32, upb_struct_set_int32, readBytes_writeBytes]
    rw [Nat.mod_eq_of_lt (by simpa using ofInt32_lt v)]
    exact toInt32_ofInt32 v h1 h2
  · intro v h1 h2
    rw [upb_struct_get_int64, upb_struct_set_int64, readBytes_writeBytes]
    rw [Nat.mod_eq_of_lt (by simpa using ofInt64_lt v)]
    exact toInt64_ofInt64 v h1 h2
  · intro v hv
    rw [upb_struct_get_uint32, upb_struct_set_uint32, readBytes_writeBytes]
    exact Nat.mod_eq_of_lt (by simpa using hv)
  · intro v hv
    rw [upb_struct_get_uint64, upb_struct_set_uint64, readBytes_writeBytes]
    exact Nat.mod_eq_of_lt (by simpa using hv)
  · intro v
    rw [upb_struct_get_bool, upb_struct_set_bool, readBytes_writeBytes]
    cases v <;> rfl

/-- C5 witness: one concrete round trip per primitive type. -/
theorem C5_set_get_roundtrip_witness :
    (upb_struct_get_double (upb_struct_set_double sZero fC5 7) fC5 = 7) ∧
    (upb_struct_get_float (upb_struct_set_float sZero fC5 6) fC5 = 6) ∧
    (upb_struct_get_int32 (upb_struct_set_int32 sZero fC5 (-5)) fC5 = -5) ∧
    (upb_struct_get_int64 (upb_struct_set_int64 sZero fC5 (-9)) fC5 = -9) ∧
    (upb_struct_get_uint32 (upb_struct_set_uint32 sZero fC5 4) fC5 = 4) ∧
    (upb_struct_get_uint64 (upb_struct_set_uint64 sZero fC5 3) fC5 = 3) ∧
    (upb_struct_get_bool (upb_struct_set_bool sZero fC5 true) fC5 = true) :=
  ⟨(C5_set_get_roundtrip sZero fC5).1 7 (by norm_num),
   (C5_set_get_roundtrip sZero fC5).2.1 6 (by norm_num),
   (C5_set_get_roundtrip sZero fC5).2.2.1 (-5) (by norm_num) (by norm_num),
   (C5_set_get_roundtrip sZero fC5).2.2.2.1 (-9) (by norm_num) (by norm_num),
   (C5_set_get_roundtrip sZero fC5).2.2.2.2.1 4 (by norm_num),
   (C5_set_get_roundtrip sZero fC5).2.2.2.2.2.1 3 (by norm_num),
   (C5_set_get_roundtrip sZero fC5).2.2.2.2.2.2 true⟩

/-- C6: after upb_struct_clear, upb_struct_is_set is false for every
field of the definition, under the data-model invariant that each
field's isset_byte_offset lies inside the presence region. -/
theorem C6_clear_unsets_all (s : Mem) (d : upb_struct_definition)
    (f : upb_struct_field) (hf : f ∈ d.fields)
    (hinv : ∀ g ∈ d.fields, g.isset_byte_offset < d.set_flags_bytes) :
    upb_struct_is_set (upb_struct_clear s d) f = false := by
  have hoff := hinv f hf
  rw [upb_struct_is_set, upb_struct_clear]
  simp [hoff]

/-- C6 witness: clearing a concrete one-field definition unsets its
field. -/
theorem C6_clear_unsets_all_witness :
    (⟨1, 0, 1⟩ : upb_struct_field) ∈ dC2.fields ∧
    (∀ g ∈ dC2.fields, g.isset_byte_offset < dC2.set_flags_bytes) ∧
    upb_struct_is_set (upb_struct_clear sC2 dC2) ⟨1, 0, 1⟩ = false :=
  ⟨by decide, by decide,
    C6_clear_unsets_all sC2 dC2 ⟨1, 0, 1⟩ (by decide) (by decide)⟩

/-- Field f for the C7 counterexample: presence bit 0 of byte 0. -/
def fC7 : upb_struct_field := ⟨8, 0, 1⟩

/-- Field g for the C7 counterexample: presence bit 1 of byte 0, the
same byte as fC7 but a different bit. -/
def gC7 : upb_struct_field := ⟨9, 0, 2⟩

/-- Buffer for the C7 counterexample: every byte is 1, so f's bit is
already set before the setFlag. -/
def sC7 : Mem := fun _ => 1

/-- C7 counterexample: f and g share presence byte 0 with distinct
single-bit masks, and f's bit is 1 beforehand.  setFlag(f) then
unsetFlag(f) leaves the shared byte at 0, not at its original value 1:
the rest of g's presence byte (namely f's own bit) is NOT restored, so
the claim's "leaves ... the rest of g's presence byte exactly as it
was" fails. -/
theorem C7_counterexample :
    gC7.isset_byte_offset = fC7.isset_byte_offset ∧
    gC7.isset_byte_mask ≠ fC7.isset_byte_mask ∧
    upb_struct_unset (upb_struct_set sC7 fC7) fC7 gC7.isset_byte_offset ≠
      sC7 gC7.isset_byte_offset := by
  decide

/-- C7 (amended): for single-bit masks 2 ^ fk and 2 ^ gk at a different
(byte, bit) position, setFlag(f) then unsetFlag(f) leaves g's presence
bit exactly as it was (part 1); when g's presence byte differs from f's
the whole byte is unchanged (part 2); within f's own byte every bit
other than f's bit position is unchanged (part 3) - f's own bit itself
ends cleared, so a shared byte as a whole may differ when f's bit was
set beforehand, which is exactly what the counterexample exhibits. -/
theorem C7_set_unset_no_interference (s : Mem) (f g : upb_struct_field)
    (fk gk : Nat)
    (hf : f.isset_byte_mask = 2 ^ fk) (hfk : fk < 8)
    (hg : g.isset_byte_mask = 2 ^ gk) (hgk : gk < 8)
    (hpos : g.isset_byte_offset ≠ f.isset_byte_offset ∨ gk ≠ fk)
    (hb : ∀ j, s j < 256) :
    upb_struct_is_set (upb_struct_unset (upb_struct_set s f) f) g =
      upb_struct_is_set s g
    ∧ (g.isset_byte_offset ≠ f.isset_byte_offset →
        upb_struct_unset (upb_struct_set s f) f g.isset_byte_offset =
          s g.isset_byte_offset)
    ∧ (∀ l, l ≠ fk →
        (upb_struct_unset (upb_struct_set s f) f
            f.isset_byte_offset).testBit l =
          (s f.isset_byte_offset).testBit l) := by
  have hval : upb_struct_unset (upb_struct_set s f) f =
      setByte s f.isset_byte_offset
        ((s f.isset_byte_offset ||| f.isset_byte_mask) &&&
          (255 ^^^ f.isset_byte_mask)) := by
    rw [upb_struct_unset, upb_struct_set, setByte_self, setByte_absorb]
  have hbit3 : ∀ l, l ≠ fk →
      ((s f.isset_byte_offset ||| f.isset_byte_mask) &&&
        (255 ^^^ f.isset_byte_mask)).testBit l =
      (s f.isset_byte_offset).testBit l := by
    intro l hl
    rw [hf, Nat.testBit_land, Nat.testBit_lor, Nat.testBit_xor,
      Nat.testBit_two_pow,
      show (255 : Nat) = 2 ^ 8 - 1 from by norm_num,
      Nat.testBit_two_pow_sub_one,
      decide_eq_false (show ¬(fk = l) from fun he => hl he.symm)]
    by_cases hl8 : l < 8
    · rw [decide_eq_true hl8]
      simp
    · rw [decide_eq_false hl8]
      have h2l : (256 : Nat) ≤ 2 ^ l := by
        calc (256 : Nat) = 2 ^ 8 := by norm_num
          _ ≤ 2 ^ l := Nat.pow_le_pow_right (by norm_num) (by omega)
      have hsl : (s f.isset_byte_offset).testBit l = false :=
        Nat.testBit_lt_two_pow (lt_of_lt_of_le (hb _) h2l)
      simp [hsl]
  refine ⟨?_, ?_, ?_⟩
  · rw [upb_struct_is_set, upb_struct_is_set, hval]
    by_cases hoff : g.isset_byte_offset = f.isset_byte_offset
    · have hgkfk : gk ≠ fk := by
        rcases hpos with h | h
        · exact absurd hoff h
        · exact h
      rw [hoff, setByte_self, hg, Nat.and_two_pow, Nat.and_two_pow,
        hbit3 gk hgkfk]
    · rw [setByte_ne _ _ _ _ hoff]
  · intro hoff
    rw [hval, setByte_ne _ _ _ _ hoff]
  · intro l hl
    rw [hval, setByte_self]
    exact hbit3 l hl

/-- C7 witness: the amended non-interference statement at the concrete
shared-byte fields fC7 and gC7. -/
theorem C7_set_unset_no_interference_witness :
    (fC7.isset_byte_mask = 2 ^ 0) ∧ (gC7.isset_byte_mask = 2 ^ 1) ∧
    (∀ j, sC7 j < 256) ∧
    (upb_struct_is_set (upb_struct_unset (upb_struct_set sC7 fC7) fC7) gC7 =
      upb_struct_is_set sC7 gC7) := by
  have hb : ∀ j, sC7 j < 256 := by
    intro j
    norm_num [sC7]
  exact ⟨rfl, rfl, hb,
    (C7_set_unset_no_interference sC7 fC7 gC7 0 1 rfl (by norm_num) rfl
      (by norm_num) (Or.inr (by norm_num)) hb).1⟩

/-- C8: setFlag and unsetFlag are idempotent, and they are exactly the
OR of the mask, respectively the AND of its complement, into the byte
at isset_byte_offset. -/
theorem C8_flag_ops_idempotent (s : Mem) (f : upb_struct_field) :
    upb_struct_set (upb_struct_set s f) f = upb_struct_set s f
    ∧ upb_struct_unset (upb_struct_unset s f) f = upb_struct_unset s f
    ∧ upb_struct_set s f =
        setByte s f.isset_byte_offset
          (s f.isset_byte_offset ||| f.isset_byte_mask)
    ∧ upb_struct_unset s f =
        setByte s f.isset_byte_offset
          (s f.isset_byte_offset &&& (255 ^^^ f.isset_byte_mask)) := by
  refine ⟨?_, ?_, rfl, rfl⟩
  · simp only [upb_struct_set]
    rw [setByte_self, setByte_absorb, Nat.lor_assoc, Nat.or_self]
  · simp only [upb_struct_unset]
    rw [setByte_self, setByte_absorb, Nat.land_assoc, Nat.and_self]

/-- Array record for the C9 witness: length 3, data at address 0. -/
def arrC9 : upb_array := ⟨3, 0⟩

/-- C9: on an int32 array, set(arr, 1, -5) followed by get(arr, 1)
returns -5 while get(arr, 0) and get(arr, 2) are unchanged, and the
element pointer addresses element n at data + n * 4 bytes
(n * sizeof(int32_t)). -/
theorem C9_array_int32_accessors (m : Mem) (a : upb_array)
    (h3 : a.len = 3) :
    upb_array_get_int32 (upb_array_set_int32 m a 1 (-5)) a 1 = -5
    ∧ upb_array_get_int32 (upb_array_set_int32 m a 1 (-5)) a 0 =
        upb_array_get_int32 m a 0
    ∧ upb_array_get_int32 (upb_array_set_int32 m a 1 (-5)) a 2 =
        upb_array_get_int32 m a 2
    ∧ (∀ n, upb_array_get_int32_ptr a n = a.data + n * 4) := by
  refine ⟨?_, ?_, ?_, ?_⟩
  · rw [upb_array_get_int32, upb_array_set_int32, readBytes_writeBytes]
    rw [Nat.mod_eq_of_lt (by simpa using ofInt32_lt (-5))]
    exact toInt32_ofInt32 (-5) (by norm_num) (by norm_num)
  · rw [upb_array_get_int32, upb_array_set_int32, upb_array_get_int32,
      readBytes_writeBytes_disjoint 4 4 m _ _ _
        (Or.inl (by unfold upb_array_get_int32_ptr; omega))]
  · rw [upb_array_get_int32, upb_array_set_int32, upb_array_get_int32,
      readBytes_writeBytes_disjoint 4 4 m _ _ _
        (Or.inr (by unfold upb_array_get_int32_ptr; omega))]
  · intro n
    rw [upb_array_get_int32_ptr]
    omega

/-- C9 witness: the array accessors at the concrete length-3 record. -/
theorem C9_array_int32_accessors_witness :
    arrC9.len = 3 ∧
    upb_array_get_int32 (upb_array_set_int32 sZero arrC9 1 (-5)) arrC9 1 =
      -5 :=
  ⟨rfl, (C9_array_int32_accessors sZero arrC9 rfl).1⟩

/-- C10: looking up a name or a field number that no field of the
definition carries returns the none sentinel rather than an error; the
lookups are pure functions of the definition, which is left unchanged.
The lookups are modelled from the spec because only their declarations
are under src/. -/
theorem C10_find_absent_returns_none (fs : List upb_named_field)
    (nm : String) (num : Nat) :
    ((∀ nf ∈ fs, nf.name ≠ nm) →
      upb_struct_find_field_by_name fs nm = none)
    ∧ ((∀ nf ∈ fs, nf.number ≠ num) →
      upb_struct_find_field_by_number fs num = none) := by
  constructor
  · induction fs with
    | nil => intro _; rfl
    | cons nf rest ih =>
        intro h
        rw [upb_struct_find_field_by_name,
          if_neg (h nf (List.mem_cons_self nf rest))]
        exact ih (fun x hx => h x (List.mem_cons_of_mem nf hx))
  · induction fs with
    | nil => intro _; rfl
    | cons nf rest ih =>
        intro h
        rw [upb_struct_find_field_by_number,
          if_neg (h nf (List.mem_cons_self nf rest))]
        exact ih (fun x hx => h x (List.mem_cons_of_mem nf hx))

/-- Named descriptor for the C10 witness. -/
def nfC10 : upb_named_field := ⟨"id", 1, ⟨8, 0, 1⟩⟩

/-- C10 witness: an absent name and an absent number on a concrete
one-field definition both return none. -/
theorem C10_find_absent_returns_none_witness :
    (∀ nf ∈ [nfC10], nf.name ≠ "missing") ∧
    upb_struct_find_field_by_name [nfC10] "missing" = none ∧
    (∀ nf ∈ [nfC10], nf.number ≠ 7) ∧
    upb_struct_find_field_by_number [nfC10] 7 = none := by
  have h1 : ∀ nf ∈ [nfC10], nf.name ≠ "missing" := by decide
  have h2 : ∀ nf ∈ [nfC10], nf.number ≠ 7 := by decide
  exact ⟨h1, (C10_find_absent_returns_none [nfC10] "missing" 7).1 h1, h2,
    (C10_find_absent_returns_none [nfC10] "missing" 7).2 h2⟩

end Upb
